import Mathlib

/-!
Shallow embedding of the talker-backend chat core: the Prisma-backed
`ConversationService` and `MessageService`, the `UserService.updateStatus`
presence write, and the socket `ChatGateway` handlers.  Database state is
passed explicitly; every service call returns `Except ServiceError α × DB`,
where an `error` result leaves the returned state exactly as the service
left it when the exception was thrown (all writes performed so far persist,
matching the non-transactional Prisma calls).
-/

namespace Talker

/-- Error taxonomy: `validation` = BadRequestException, `authorization` =
ForbiddenException, `notFound` = NotFoundException, `storage` = a
Prisma-level failure (e.g. update of a missing row). -/
inductive ServiceError where
  | validation (msg : String)
  | authorization (msg : String)
  | notFound (msg : String)
  | storage (msg : String)
deriving DecidableEq

instance {ε α : Type} [DecidableEq ε] [DecidableEq α] : DecidableEq (Except ε α) := fun x y =>
  match x, y with
  | .ok a, .ok b =>
    if h : a = b then .isTrue (by rw [h]) else .isFalse (by simp [h])
  | .error e, .error f =>
    if h : e = f then .isTrue (by rw [h]) else .isFalse (by simp [h])
  | .ok _, .error _ => .isFalse (by simp)
  | .error _, .ok _ => .isFalse (by simp)

/-- A row of the `participant` table: membership of a user in a conversation,
optionally admin-flagged; `createdAt` is the joinedAt timestamp. -/
structure Participant where
  id : Nat
  userId : Nat
  conversationId : Nat
  isAdmin : Bool
  createdAt : Nat
deriving DecidableEq

/-- A row of the `conversation` table. -/
structure Conversation where
  id : Nat
  isGroup : Bool
  name : Option String
  lastMessageId : Option Nat
  updatedAt : Nat
deriving DecidableEq

/-- A row of the `message` table. -/
structure Message where
  id : Nat
  conversationId : Nat
  userId : Nat
  content : String
  createdAt : Nat
  updatedAt : Nat
  isDeleted : Bool
  isRead : Bool
deriving DecidableEq

/-- A row of the `user` table (the fields the chat core touches). -/
structure User where
  id : Nat
  username : String
  isOnline : Bool
  lastSeen : Nat
deriving DecidableEq

/-- The authoritative storage state.  `next*Id` model the autoincrement
sequences; `now` is the current clock value used for `new Date()`. -/
structure DB where
  users : List User
  conversations : List Conversation
  participants : List Participant
  messages : List Message
  nextConversationId : Nat
  nextParticipantId : Nat
  nextMessageId : Nat
  now : Nat
deriving DecidableEq

/-- Database well-formedness: primary keys are unique, the compound unique
constraint `(userId, conversationId)` on participants holds, and every
existing id is below its autoincrement counter (so freshly created rows are
genuinely fresh). -/
@[reducible] def DB.WF (db : DB) : Prop :=
  db.conversations.Pairwise (fun c d => c.id ≠ d.id) ∧
  db.participants.Pairwise (fun p q => p.id ≠ q.id) ∧
  db.participants.Pairwise
    (fun p q => ¬(p.userId = q.userId ∧ p.conversationId = q.conversationId)) ∧
  (∀ c ∈ db.conversations, c.id < db.nextConversationId) ∧
  (∀ p ∈ db.participants, p.id < db.nextParticipantId) ∧
  (∀ p ∈ db.participants, p.conversationId < db.nextConversationId) ∧
  (∀ m ∈ db.messages, m.id < db.nextMessageId) ∧
  (∀ m ∈ db.messages, m.conversationId < db.nextConversationId)

/-- `orderBy: { createdAt: 'asc' }` on participants. -/
def byJoinedAsc (a b : Participant) : Prop := a.createdAt ≤ b.createdAt

instance : DecidableRel byJoinedAsc := fun a b => Nat.decLe a.createdAt b.createdAt

instance : IsTotal Participant byJoinedAsc :=
  ⟨fun a b => Nat.le_total a.createdAt b.createdAt⟩

instance : IsTrans Participant byJoinedAsc :=
  ⟨fun _ _ _ h h' => Nat.le_trans h h'⟩

/-- `orderBy: { createdAt: 'desc' }` on messages. -/
def byCreatedDesc (a b : Message) : Prop := b.createdAt ≤ a.createdAt

instance : DecidableRel byCreatedDesc := fun a b => Nat.decLe b.createdAt a.createdAt

/-- `orderBy: { updatedAt: 'desc' }` on conversations. -/
def byUpdatedDesc (a b : Conversation) : Prop := b.updatedAt ≤ a.updatedAt

instance : DecidableRel byUpdatedDesc := fun a b => Nat.decLe b.updatedAt a.updatedAt

/-- `prisma.participant.findUnique({ where: { userId_conversationId } })`. -/
def DB.findParticipant (db : DB) (userId conversationId : Nat) : Option Participant :=
  db.participants.find? fun p =>
    p.userId == userId && p.conversationId == conversationId

/-- `prisma.conversation.findUnique({ where: { id } })`. -/
def DB.findConversation (db : DB) (conversationId : Nat) : Option Conversation :=
  db.conversations.find? fun c => c.id == conversationId

/-- `prisma.message.findUnique({ where: { id } })`. -/
def DB.findMessage (db : DB) (messageId : Nat) : Option Message :=
  db.messages.find? fun m => m.id == messageId

/-- Does some participant row link `userId` to `conversationId`?  This is the
`participants: { some: { userId } }` filter of a Prisma `where` clause. -/
def DB.hasParticipant (db : DB) (conversationId userId : Nat) : Bool :=
  db.participants.any fun p =>
    p.conversationId == conversationId && p.userId == userId

/-- All participant rows of one conversation, in table order. -/
def DB.participantsOf (db : DB) (conversationId : Nat) : List Participant :=
  db.participants.filter fun p => p.conversationId == conversationId

/-- All message rows of one conversation, in table order. -/
def DB.messagesOf (db : DB) (conversationId : Nat) : List Message :=
  db.messages.filter fun m => m.conversationId == conversationId

/-- The admin rows of one conversation. -/
def DB.adminsOf (db : DB) (conversationId : Nat) : List Participant :=
  db.participants.filter fun p => p.isAdmin && p.conversationId == conversationId

namespace ConversationService

/-- The `where` filter of the duplicate lookup in
`findOrCreatePrivateConversation`: a non-group conversation in which both
users participate. -/
def privatePairPred (db : DB) (user1Id user2Id : Nat) (c : Conversation) : Bool :=
  !c.isGroup && db.hasParticipant c.id user1Id && db.hasParticipant c.id user2Id

/-- How many non-group conversations contain both users. -/
def privatePairCount (db : DB) (user1Id user2Id : Nat) : Nat :=
  db.conversations.countP (privatePairPred db user1Id user2Id)

/-- `ConversationService.findOrCreatePrivateConversation`:
rejects `user1Id == user2Id`, otherwise returns the first existing non-group
conversation containing both users, or atomically creates one with exactly
those two participants. -/
def findOrCreatePrivateConversation (db : DB) (user1Id user2Id : Nat) :
    Except ServiceError Conversation × DB :=
  if user1Id == user2Id then
    (.error (.validation "You cannot start a conversation with yourself"), db)
  else
    match db.conversations.find? (privatePairPred db user1Id user2Id) with
    | some existing => (.ok existing, db)
    | none =>
      let conv : Conversation :=
        { id := db.nextConversationId, isGroup := false, name := none,
          lastMessageId := none, updatedAt := db.now }
      let p1 : Participant :=
        { id := db.nextParticipantId, userId := user1Id,
          conversationId := conv.id, isAdmin := false, createdAt := db.now }
      let p2 : Participant :=
        { id := db.nextParticipantId + 1, userId := user2Id,
          conversationId := conv.id, isAdmin := false, createdAt := db.now }
      (.ok conv,
        { db with
            conversations := db.conversations ++ [conv],
            participants := db.participants ++ [p1, p2],
            nextConversationId := db.nextConversationId + 1,
            nextParticipantId := db.nextParticipantId + 2 })

/-- The non-admin member rows created by the nested `create` of
`createGroupConversation`, with consecutive fresh row ids. -/
def mkMemberRows (conversationId firstId t : Nat) : List Nat → List Participant
  | [] => []
  | uid :: rest =>
    { id := firstId, userId := uid, conversationId := conversationId,
      isAdmin := false, createdAt := t } :: mkMemberRows conversationId (firstId + 1) t rest

/-- `ConversationService.createGroupConversation`: rejects an empty
participant list, silently drops the admin id from the member list, and
creates the conversation with the creator as sole admin. -/
def createGroupConversation (db : DB) (name : String) (adminId : Nat)
    (participantIds : List Nat) : Except ServiceError Conversation × DB :=
  if participantIds.isEmpty then
    (.error (.validation "A group must have at least one participant other than the admin"), db)
  else
    let uniqueParticipants := participantIds.filter fun uid => !(uid == adminId)
    let conv : Conversation :=
      { id := db.nextConversationId, isGroup := true, name := some name,
        lastMessageId := none, updatedAt := db.now }
    let adminRow : Participant :=
      { id := db.nextParticipantId, userId := adminId,
        conversationId := conv.id, isAdmin := true, createdAt := db.now }
    let memberRows := mkMemberRows conv.id (db.nextParticipantId + 1) db.now uniqueParticipants
    (.ok conv,
      { db with
          conversations := db.conversations ++ [conv],
          participants := db.participants ++ adminRow :: memberRows,
          nextConversationId := db.nextConversationId + 1,
          nextParticipantId := db.nextParticipantId + 1 + uniqueParticipants.length })

/-- One entry of the sidebar list returned by `getUserConversations`: the
conversation, the other participants, and the latest message (`take: 1`,
ordered by `createdAt` descending) with its stored content verbatim. -/
structure ConversationView where
  conversation : Conversation
  otherParticipants : List Participant
  lastMessages : List Message
deriving DecidableEq

/-- `ConversationService.getUserConversations`: every conversation the user
participates in, ordered by `updatedAt` descending, each with the other
participants and the single latest message included as stored. -/
def getUserConversations (db : DB) (userId : Nat) : List ConversationView :=
  let convs := (db.conversations.filter fun c => db.hasParticipant c.id userId)
  (convs.insertionSort byUpdatedDesc).map fun c =>
    { conversation := c,
      otherParticipants := (db.participantsOf c.id).filter fun p => !(p.userId == userId),
      lastMessages := ((db.messagesOf c.id).insertionSort byCreatedDesc).take 1 }

/-- `ConversationService.removeParticipant`: requester must be a member
(`ForbiddenException` otherwise), target must be a member
(`NotFoundException` otherwise), and a non-admin requester may only remove
themself; the participant row is then deleted — with no cascade and no
admin rotation. -/
def removeParticipant (db : DB) (conversationId targetUserId requesterId : Nat) :
    Except ServiceError Participant × DB :=
  match db.findParticipant requesterId conversationId with
  | none => (.error (.authorization "You are not a member of this conversation"), db)
  | some requester =>
    match db.findParticipant targetUserId conversationId with
    | none => (.error (.notFound "Target user is not a participant in this conversation"), db)
    | some target =>
      if !requester.isAdmin && !(targetUserId == requesterId) then
        (.error (.authorization "Only admins can remove other members"), db)
      else
        (.ok target,
          { db with participants := db.participants.filter fun p =>
              !(p.userId == targetUserId && p.conversationId == conversationId) })

/-- Result payload of `deleteConversation`. -/
structure DeleteResult where
  success : Bool
  message : String
deriving DecidableEq

/-- `ConversationService.deleteConversation` (the LeaveOrDelete transaction):
removes the calling participant; if nobody remains, deletes all messages and
the conversation; otherwise, if the leaver was admin, promotes the remaining
participant with the earliest `createdAt`. -/
def deleteConversation (db : DB) (conversationId userId : Nat) :
    Except ServiceError DeleteResult × DB :=
  match db.findParticipant userId conversationId with
  | none => (.error (.notFound "Conversation not found or access denied"), db)
  | some participant =>
    let afterDelete := db.participants.filter fun p =>
      !(p.userId == userId && p.conversationId == conversationId)
    let remaining :=
      (afterDelete.filter fun p => p.conversationId == conversationId).insertionSort byJoinedAsc
    match remaining with
    | [] =>
      (.ok { success := true, message := "Conversation fully deleted" },
        { db with
            participants := afterDelete,
            messages := db.messages.filter fun m => !(m.conversationId == conversationId),
            conversations := db.conversations.filter fun c => !(c.id == conversationId) })
    | oldest :: _ =>
      if participant.isAdmin then
        (.ok { success := true, message := "You left the conversation" },
          { db with participants := afterDelete.map fun p =>
              if p.id == oldest.id then { p with isAdmin := true } else p })
      else
        (.ok { success := true, message := "You left the conversation" },
          { db with participants := afterDelete })

/-- `ConversationService.isParticipant`. -/
def isParticipant (db : DB) (conversationId userId : Nat) : Bool :=
  (db.findParticipant userId conversationId).isSome

end ConversationService

namespace MessageService

/-- `MessageService.createMessage`: inserts the message row, then updates the
conversation's `updatedAt` and `lastMessageId`.  The two writes are separate
Prisma calls (no transaction): if the conversation row is missing, the
message insert persists and the update throws. -/
def createMessage (db : DB) (userId conversationId : Nat) (content : String) :
    Except ServiceError Message × DB :=
  let message : Message :=
    { id := db.nextMessageId, conversationId := conversationId, userId := userId,
      content := content, createdAt := db.now, updatedAt := db.now,
      isDeleted := false, isRead := false }
  let db1 := { db with
    messages := db.messages ++ [message],
    nextMessageId := db.nextMessageId + 1 }
  if db1.conversations.any (fun c => c.id == conversationId) then
    (.ok message,
      { db1 with conversations := db1.conversations.map fun c =>
          if c.id == conversationId then
            { c with updatedAt := db.now, lastMessageId := some message.id }
          else c })
  else
    (.error (.storage "Record to update not found"), db1)

/-- The fixed placeholder substituted for soft-deleted messages. -/
def deletedPlaceholder : String := "This message was deleted"

/-- `MessageService.getMessagesByConversation`: page is 1-indexed, newest
first; soft-deleted messages are returned with the placeholder content. -/
def getMessagesByConversation (db : DB) (conversationId : Nat)
    (limit : Nat := 50) (page : Nat := 1) : List Message :=
  let skip := (page - 1) * limit
  let msgs := (((db.messagesOf conversationId).insertionSort byCreatedDesc).drop skip).take limit
  msgs.map fun msg =>
    if msg.isDeleted then { msg with content := deletedPlaceholder } else msg

/-- `MessageService.editMessage`: not-found and author checks, then the
content and `updatedAt` are overwritten; `isDeleted` is not consulted. -/
def editMessage (db : DB) (messageId userId : Nat) (newText : String) :
    Except ServiceError Message × DB :=
  match db.findMessage messageId with
  | none => (.error (.notFound "Message not found"), db)
  | some message =>
    if !(message.userId == userId) then
      (.error (.authorization "You can only edit your own messages"), db)
    else
      (.ok { message with content := newText, updatedAt := db.now },
        { db with messages := db.messages.map fun m =>
            if m.id == messageId then { m with content := newText, updatedAt := db.now }
            else m })

/-- `MessageService.deleteMessage`: same checks as edit, then the soft-delete
flag is set; the stored content is retained. -/
def deleteMessage (db : DB) (messageId userId : Nat) :
    Except ServiceError Message × DB :=
  match db.findMessage messageId with
  | none => (.error (.notFound "Message not found"), db)
  | some message =>
    if !(message.userId == userId) then
      (.error (.authorization "You can only delete your own messages"), db)
    else
      (.ok { message with isDeleted := true },
        { db with messages := db.messages.map fun m =>
            if m.id == messageId then { m with isDeleted := true } else m })

/-- `MessageService.markAsRead`: bulk-flips `isRead` on all unread messages
of the conversation authored by someone else. -/
def markAsRead (db : DB) (conversationId userId : Nat) : DB :=
  { db with messages := db.messages.map fun m =>
      if m.conversationId == conversationId && !(m.userId == userId) && !m.isRead then
        { m with isRead := true }
      else m }

end MessageService

namespace UserService

/-- `UserService.updateStatus`: flips the user's `isOnline` flag and
refreshes `lastSeen`, returning the selected fields of the updated row;
the underlying `prisma.user.update` throws when the user does not exist. -/
def updateStatus (users : List User) (userId : Nat) (status : Bool) (now : Nat) :
    Except ServiceError (User × List User) :=
  match users.find? (fun u => u.id == userId) with
  | none => .error (.storage "Record to update not found")
  | some u =>
    .ok ({ u with isOnline := status, lastSeen := now },
      users.map fun v =>
        if v.id == userId then { v with isOnline := status, lastSeen := now } else v)

end UserService

/-- An authenticated socket: its id, the `client.data.userId` stored at
handshake, and the rooms it joined. -/
structure Socket where
  sockId : Nat
  userId : Option Nat
  rooms : List String
deriving DecidableEq

/-- An event emitted by the gateway.  `userStatusChanged` is a global
broadcast; the others carry their target room key. -/
inductive OutEvent where
  | userStatusChanged (user : User)
  | receiveMessage (room : String) (message : Message)
  | newNotification (room : String) (senderName : String) (text : String) (conversationId : Nat)
  | messagesMarkedAsRead (room : String) (conversationId readBy readAt : Nat)
  | userTyping (room : String) (userName : String) (isTyping : Bool)
  | messageUpdated (room : String) (messageId : Nat) (newText : String)
  | messageDeleted (room : String) (messageId : Nat)
deriving DecidableEq

/-- The gateway's view of the world: the storage state plus the set of live
authenticated sockets. -/
structure GatewayState where
  db : DB
  sockets : List Socket
deriving DecidableEq

namespace ChatGateway

/-- Room key of a conversation. -/
def conversationRoom (conversationId : Nat) : String :=
  "conversation_" ++ toString conversationId

/-- Per-user direct notification channel. -/
def userNotificationsRoom (userId : Nat) : String :=
  "user_notifications_" ++ toString userId

/-- `ChatGateway.handleConnection`: a missing or invalid token disconnects
the client with no event (`token = none` models both).  On a verified
identity the socket joins its notification room, the user row is flipped
online, and one `userStatusChanged` is broadcast — with no regard to how
many other connections of the same user are already open.  If the status
update itself throws, the catch block disconnects the client silently. -/
def handleConnection (st : GatewayState) (sockId : Nat) (token : Option Nat) :
    GatewayState × List OutEvent :=
  match token with
  | none => (st, [])
  | some userId =>
    match UserService.updateStatus st.db.users userId true st.db.now with
    | .error _ => (st, [])
    | .ok (updatedUser, users) =>
      ({ db := { st.db with users := users },
         sockets := st.sockets ++
           [{ sockId := sockId, userId := some userId,
              rooms := [userNotificationsRoom userId] }] },
       [.userStatusChanged updatedUser])

/-- `ChatGateway.handleDisconnect`: if the departing socket carried a
`userId`, the user row is flipped offline and one `userStatusChanged` is
broadcast — regardless of other live sockets of the same user. -/
def handleDisconnect (st : GatewayState) (sockId : Nat) :
    GatewayState × List OutEvent :=
  let rest := st.sockets.filter fun s => !(s.sockId == sockId)
  match st.sockets.find? (fun s => s.sockId == sockId) with
  | none => ({ st with sockets := rest }, [])
  | some s =>
    match s.userId with
    | none => ({ st with sockets := rest }, [])
    | some userId =>
      match UserService.updateStatus st.db.users userId false st.db.now with
      | .error _ => ({ st with sockets := rest }, [])
      | .ok (updatedUser, users) =>
        ({ db := { st.db with users := users }, sockets := rest },
         [.userStatusChanged updatedUser])

/-- `ChatGateway.handleMessage` (`sendMessage`): refuses a sender who is not
a participant with a structured error and no write; otherwise persists the
message, broadcasts `receiveMessage` to the conversation room, and, when a
`receiverId` is given, sends a `newNotification` on the receiver's direct
channel. -/
def handleMessage (st : GatewayState) (senderId conversationId : Nat)
    (text : String) (receiverId : Option Nat) :
    Except String Message × GatewayState × List OutEvent :=
  if !(ConversationService.isParticipant st.db conversationId senderId) then
    (.error "Unauthorized: You are not a member of this conversation", st, [])
  else
    match MessageService.createMessage st.db senderId conversationId text with
    | (.error _, db) => (.error "Internal error", { st with db := db }, [])
    | (.ok savedMessage, db) =>
      let senderName :=
        ((st.db.users.find? fun u => u.id == senderId).map User.username).getD ""
      (.ok savedMessage, { st with db := db },
        .receiveMessage (conversationRoom conversationId) savedMessage ::
          (match receiverId with
           | none => []
           | some rid =>
             [.newNotification (userNotificationsRoom rid) senderName text conversationId]))

/-- `ChatGateway.handleEditMessage` (`editMessage`): delegates to
`MessageService.editMessage`, then broadcasts `messageUpdated` carrying the
submitted text to the conversation room. -/
def handleEditMessage (st : GatewayState) (userId messageId conversationId : Nat)
    (text : String) : Except ServiceError Message × GatewayState × List OutEvent :=
  match MessageService.editMessage st.db messageId userId text with
  | (.error e, db) => (.error e, { st with db := db }, [])
  | (.ok updatedMessage, db) =>
    (.ok updatedMessage, { st with db := db },
      [.messageUpdated (conversationRoom conversationId) messageId text])

end ChatGateway

/-- Does a service result carry a `notFound` error? -/
def isNotFoundResult {α : Type} : Except ServiceError α → Bool
  | .error (.notFound _) => true
  | _ => false

-- Concrete fixtures (one family per claim, so they stay independent).

/-- C1 fixture: group 1 whose only participant is user 2 (admin), with one
stored message. -/
def exDbC1 : DB :=
  { users := [], conversations := [⟨1, true, some "g", none, 0⟩],
    participants := [⟨1, 2, 1, true, 0⟩],
    messages := [⟨1, 1, 2, "hello", 0, 0, false, false⟩],
    nextConversationId := 2, nextParticipantId := 2, nextMessageId := 2, now := 5 }

/-- C2 fixture: group 1 with admin user 5 (joined first) and member user 7. -/
def exDbC2 : DB :=
  { users := [], conversations := [⟨1, true, some "g", none, 0⟩],
    participants := [⟨1, 5, 1, true, 0⟩, ⟨2, 7, 1, false, 1⟩],
    messages := [],
    nextConversationId := 2, nextParticipantId := 3, nextMessageId := 1, now := 9 }

/-- C3 fixture: private conversation 1 between users 1 and 2 whose latest
message is soft-deleted with stored content `"secret"`. -/
def exDbC3 : DB :=
  { users := [], conversations := [⟨1, false, none, some 1, 4⟩],
    participants := [⟨1, 1, 1, false, 0⟩, ⟨2, 2, 1, false, 0⟩],
    messages := [⟨1, 1, 2, "secret", 3, 3, true, false⟩],
    nextConversationId := 2, nextParticipantId := 3, nextMessageId := 2, now := 9 }

/-- C4 fixture: an empty, well-formed database. -/
def exDbC4 : DB :=
  { users := [], conversations := [], participants := [], messages := [],
    nextConversationId := 1, nextParticipantId := 1, nextMessageId := 1, now := 0 }

/-- C5 fixture: user 1 is online with two live authenticated sockets. -/
def exStC5 : GatewayState :=
  { db := { users := [⟨1, "alice", true, 0⟩], conversations := [], participants := [],
            messages := [], nextConversationId := 1, nextParticipantId := 1,
            nextMessageId := 1, now := 7 },
    sockets := [⟨1, some 1, []⟩, ⟨2, some 1, []⟩] }

/-- C6 fixture: one message authored by user 2. -/
def exDbC6 : DB :=
  { users := [], conversations := [⟨1, false, none, some 1, 0⟩],
    participants := [⟨1, 1, 1, false, 0⟩, ⟨2, 2, 1, false, 0⟩],
    messages := [⟨1, 1, 2, "hello", 0, 0, false, false⟩],
    nextConversationId := 2, nextParticipantId := 3, nextMessageId := 2, now := 6 }

/-- C7 fixture: an empty database about to receive a group. -/
def exDbC7 : DB :=
  { users := [], conversations := [], participants := [], messages := [],
    nextConversationId := 1, nextParticipantId := 1, nextMessageId := 1, now := 3 }

/-- C8 fixture: conversation 10 with participant user 1, mirroring the spec
scenario. -/
def exStC8 : GatewayState :=
  { db := { users := [⟨1, "alice", true, 0⟩], conversations := [⟨10, false, none, none, 2⟩],
            participants := [⟨1, 1, 10, false, 0⟩, ⟨2, 2, 10, false, 0⟩],
            messages := [], nextConversationId := 11, nextParticipantId := 3,
            nextMessageId := 1, now := 7 },
    sockets := [⟨1, some 1, []⟩] }

/-- C9 fixture: group 1 with admin user 1 and member user 2; user 9 is not a
participant. -/
def exDbC9 : DB :=
  { users := [], conversations := [⟨1, true, some "g", none, 0⟩],
    participants := [⟨1, 1, 1, true, 0⟩, ⟨2, 2, 1, false, 1⟩, ⟨3, 3, 1, false, 2⟩],
    messages := [],
    nextConversationId := 2, nextParticipantId := 4, nextMessageId := 1, now := 0 }

/-- C10 fixture: a soft-deleted message authored by user 1, stored content
`"old"`. -/
def exStC10 : GatewayState :=
  { db := { users := [⟨1, "alice", true, 0⟩], conversations := [⟨1, false, none, some 1, 0⟩],
            participants := [⟨1, 1, 1, false, 0⟩, ⟨2, 2, 1, false, 0⟩],
            messages := [⟨1, 1, 1, "old", 0, 0, true, false⟩],
            nextConversationId := 2, nextParticipantId := 3, nextMessageId := 2, now := 8 },
    sockets := [⟨1, some 1, []⟩] }

-- Theorems.

-- Generic list helpers shared by several claims.

theorem find?_congr_mem {α : Type} {p q : α → Bool} (l : List α)
    (h : ∀ a ∈ l, p a = q a) : l.find? p = l.find? q := by
  induction l with
  | nil => rfl
  | cons a l ih =>
    simp only [List.find?]
    rw [h a (by simp)]
    cases hq : q a
    · exact ih fun b hb => h b (by simp [hb])
    · rfl

theorem findMessage_map_update (db : DB) (messageId : Nat) (f : Message → Message)
    (hf : ∀ m, (f m).id = m.id) :
    (DB.findMessage { db with messages := db.messages.map f } messageId) =
      (db.findMessage messageId).map f := by
  unfold DB.findMessage
  rw [List.find?_map]
  have hp : ((fun m => m.id == messageId) ∘ f) = (fun m : Message => m.id == messageId) := by
    funext m
    simp [Function.comp, hf]
  rw [hp]

theorem findConversation_map_update (db : DB) (conversationId : Nat)
    (f : Conversation → Conversation) (hf : ∀ c, (f c).id = c.id) :
    (DB.findConversation { db with conversations := db.conversations.map f } conversationId) =
      (db.findConversation conversationId).map f := by
  unfold DB.findConversation
  rw [List.find?_map]
  have hp : ((fun c => c.id == conversationId) ∘ f) =
      (fun c : Conversation => c.id == conversationId) := by
    funext c
    simp [Function.comp, hf]
  rw [hp]

theorem filter_eq_singleton_of_key {α : Type} (key : α → Nat) (q : α → Bool) (a : α) :
    ∀ l : List α, l.Pairwise (fun x y => key x ≠ key y) → a ∈ l → q a = true →
      (∀ b ∈ l, q b = true → key b = key a) → l.filter q = [a] := by
  intro l
  induction l with
  | nil => intro _ ha; cases ha
  | cons x xs ih =>
    intro hnd ha hqa hkey
    rw [List.pairwise_cons] at hnd
    rcases List.mem_cons.mp ha with rfl | hax
    · rw [List.filter_cons, if_pos hqa]
      have hxs : xs.filter q = [] := by
        rw [List.filter_eq_nil_iff]
        intro b hb hqb
        exact hnd.1 b hb (hkey b (List.mem_cons_of_mem _ hb) hqb).symm
      rw [hxs]
    · have hqx : q x = false := by
        cases hx : q x
        · rfl
        · exact absurd (hkey x (List.mem_cons_self x xs) hx)
            (hnd.1 a hax)
      rw [List.filter_cons, if_neg (by simp [hqx])]
      exact ih hnd.2 hax hqa fun b hb hqb =>
        hkey b (List.mem_cons_of_mem x hb) hqb

theorem participant_eq_of_same_pair {l : List Participant}
    (hnd : l.Pairwise fun p q => ¬(p.userId = q.userId ∧ p.conversationId = q.conversationId))
    {a b : Participant} (ha : a ∈ l) (hb : b ∈ l)
    (hu : a.userId = b.userId) (hc : a.conversationId = b.conversationId) : a = b := by
  by_contra hab
  have hsym : Symmetric fun p q : Participant =>
      ¬(p.userId = q.userId ∧ p.conversationId = q.conversationId) := by
    intro x y h he
    exact h ⟨he.1.symm, he.2.symm⟩
  exact hnd.forall hsym ha hb hab ⟨hu, hc⟩

theorem participant_eq_of_same_id {l : List Participant}
    (hnd : l.Pairwise fun p q => p.id ≠ q.id)
    {a b : Participant} (ha : a ∈ l) (hb : b ∈ l) (hid : a.id = b.id) : a = b := by
  by_contra hab
  have hsym : Symmetric fun p q : Participant => p.id ≠ q.id := by
    intro x y h he
    exact h he.symm
  exact hnd.forall hsym ha hb hab hid

theorem privatePairPred_comm (db : DB) (user1Id user2Id : Nat) :
    ConversationService.privatePairPred db user2Id user1Id =
      ConversationService.privatePairPred db user1Id user2Id := by
  funext c
  unfold ConversationService.privatePairPred
  cases db.hasParticipant c.id user1Id <;> cases db.hasParticipant c.id user2Id <;> simp

theorem mkMemberRows_length (cid firstId t : Nat) (uids : List Nat) :
    (ConversationService.mkMemberRows cid firstId t uids).length = uids.length := by
  induction uids generalizing firstId with
  | nil => rfl
  | cons u rest ih => simp [ConversationService.mkMemberRows, ih]

theorem mkMemberRows_mem (cid firstId t : Nat) (uids : List Nat) :
    ∀ q ∈ ConversationService.mkMemberRows cid firstId t uids,
      q.isAdmin = false ∧ q.conversationId = cid ∧ q.userId ∈ uids := by
  induction uids generalizing firstId with
  | nil => intro q hq; cases hq
  | cons u rest ih =>
    intro q hq
    simp only [ConversationService.mkMemberRows, List.mem_cons] at hq
    rcases hq with rfl | hq
    · exact ⟨rfl, rfl, by simp⟩
    · obtain ⟨h1, h2, h3⟩ := ih (firstId + 1) q hq
      exact ⟨h1, h2, by simp [h3]⟩

/-- C7 amended: `createGroupConversation` fails with the `ValidationError`
exactly when `participantIds` is empty; otherwise (for a duplicate-free
participant list — the unique constraint on `(userId, conversationId)` makes
the real insert reject duplicates) it succeeds, and the new group's
participant set is the creator's admin row followed by one row per non-admin
id: exactly one admin, the creator inserted exactly once even when `adminId`
appears in `participantIds` — but only `1 + |participantIds \ {adminId}|`
participants, which can be one, not at least two. -/
theorem c7_create_group_properties (db : DB) (name : String) (adminId : Nat)
    (participantIds : List Nat) :
    (participantIds = [] →
      ConversationService.createGroupConversation db name adminId participantIds =
        (.error (.validation "A group must have at least one participant other than the admin"),
         db)) ∧
    (participantIds ≠ [] → participantIds.Nodup → db.WF →
      ∃ conv db',
        ConversationService.createGroupConversation db name adminId participantIds =
          (.ok conv, db') ∧
        conv.isGroup = true ∧
        db'.findConversation conv.id = some conv ∧
        db'.participantsOf conv.id =
          { id := db.nextParticipantId, userId := adminId, conversationId := conv.id,
            isAdmin := true, createdAt := db.now } ::
            ConversationService.mkMemberRows conv.id (db.nextParticipantId + 1) db.now
              (participantIds.filter fun uid => !(uid == adminId)) ∧
        (db'.participantsOf conv.id).length =
          1 + (participantIds.filter fun uid => !(uid == adminId)).length ∧
        1 ≤ (db'.participantsOf conv.id).length ∧
        db'.adminsOf conv.id =
          [{ id := db.nextParticipantId, userId := adminId, conversationId := conv.id,
             isAdmin := true, createdAt := db.now }] ∧
        ((db'.participantsOf conv.id).filter fun q => q.userId == adminId) =
          [{ id := db.nextParticipantId, userId := adminId, conversationId := conv.id,
             isAdmin := true, createdAt := db.now }]) := by
  constructor
  · intro h
    subst h
    rfl
  · intro hne _hnd hwf
    obtain ⟨-, -, -, hcb, -, hpb, -, -⟩ := hwf
    have hempty : participantIds.isEmpty = false := by
      cases participantIds
      · exact absurd rfl hne
      · rfl
    unfold ConversationService.createGroupConversation
    rw [hempty]
    simp only [Bool.false_eq_true, if_false]
    have hparts :
        (DB.participantsOf
          { db with
              conversations := db.conversations ++
                [{ id := db.nextConversationId, isGroup := true, name := some name,
                   lastMessageId := none, updatedAt := db.now }],
              participants := db.participants ++
                { id := db.nextParticipantId, userId := adminId,
                  conversationId := db.nextConversationId, isAdmin := true,
                  createdAt := db.now } ::
                  ConversationService.mkMemberRows db.nextConversationId
                    (db.nextParticipantId + 1) db.now
                    (participantIds.filter fun uid => !(uid == adminId)),
              nextConversationId := db.nextConversationId + 1,
              nextParticipantId := db.nextParticipantId + 1 +
                (participantIds.filter fun uid => !(uid == adminId)).length }
          db.nextConversationId) =
        { id := db.nextParticipantId, userId := adminId,
          conversationId := db.nextConversationId, isAdmin := true,
          createdAt := db.now } ::
          ConversationService.mkMemberRows db.nextConversationId
            (db.nextParticipantId + 1) db.now
            (participantIds.filter fun uid => !(uid == adminId)) := by
      unfold DB.participantsOf
      rw [List.filter_append]
      have hold : (db.participants.filter
          fun p => p.conversationId == db.nextConversationId) = [] := by
        rw [List.filter_eq_nil_iff]
        intro p hp
        have := hpb p hp
        simp only [beq_iff_eq]
        omega
      rw [hold]
      simp only [List.nil_append, List.filter_cons]
      rw [if_pos (show (db.nextConversationId == db.nextConversationId) = true by simp)]
      congr 1
      rw [List.filter_eq_self]
      intro q hq
      obtain ⟨-, h2, -⟩ := mkMemberRows_mem db.nextConversationId
        (db.nextParticipantId + 1) db.now
        (participantIds.filter fun uid => !(uid == adminId)) q hq
      simp [h2]
    refine ⟨_, _, rfl, rfl, ?_, hparts, ?_, ?_, ?_, ?_⟩
    · unfold DB.findConversation
      rw [List.find?_append]
      have hnone : (db.conversations.find?
          fun c => c.id == db.nextConversationId) = none := by
        rw [List.find?_eq_none]
        intro c hc
        have := hcb c hc
        simp only [beq_iff_eq]
        omega
      rw [hnone]
      simp [List.find?]
    · rw [hparts]
      rw [List.length_cons, mkMemberRows_length]
      omega
    · rw [hparts]
      simp
    · unfold DB.adminsOf
      rw [List.filter_append]
      have hold : (db.participants.filter
          fun p => p.isAdmin && p.conversationId == db.nextConversationId) = [] := by
        rw [List.filter_eq_nil_iff]
        intro p hp
        have := hpb p hp
        simp only [Bool.and_eq_true, beq_iff_eq, not_and]
        intro _
        omega
      rw [hold]
      simp only [List.nil_append, List.filter_cons]
      rw [if_pos (show (true && (db.nextConversationId == db.nextConversationId)) = true
        by simp)]
      have hrest : ((ConversationService.mkMemberRows db.nextConversationId
          (db.nextParticipantId + 1) db.now
          (participantIds.filter fun uid => !(uid == adminId))).filter
            fun p => p.isAdmin && p.conversationId == db.nextConversationId) = [] := by
        rw [List.filter_eq_nil_iff]
        intro q hq
        obtain ⟨h1, -, -⟩ := mkMemberRows_mem db.nextConversationId
          (db.nextParticipantId + 1) db.now
          (participantIds.filter fun uid => !(uid == adminId)) q hq
        simp [h1]
      rw [hrest]
    · rw [hparts]
      simp only [List.filter_cons]
      rw [if_pos (show (adminId == adminId) = true by simp)]
      have hrest : ((ConversationService.mkMemberRows db.nextConversationId
          (db.nextParticipantId + 1) db.now
          (participantIds.filter fun uid => !(uid == adminId))).filter
            fun q => q.userId == adminId) = [] := by
        rw [List.filter_eq_nil_iff]
        intro q hq
        obtain ⟨-, -, h3⟩ := mkMemberRows_mem db.nextConversationId
          (db.nextParticipantId + 1) db.now
          (participantIds.filter fun uid => !(uid == adminId)) q hq
        rw [List.mem_filter] at h3
        simpa using h3.2
      rw [hrest]

/-- C7 witness: creating group "team" for admin 5 with member list `[6]` on
the empty database succeeds with the creator as the unique admin and two
participants in total. -/
theorem c7_create_group_properties_witness :
    ([6] : List Nat) ≠ [] ∧
    ∃ conv db',
      ConversationService.createGroupConversation exDbC7 "team" 5 [6] =
        (.ok conv, db') ∧
      conv.isGroup = true ∧
      db'.findConversation conv.id = some conv ∧
      db'.participantsOf conv.id =
        { id := exDbC7.nextParticipantId, userId := 5, conversationId := conv.id,
          isAdmin := true, createdAt := exDbC7.now } ::
          ConversationService.mkMemberRows conv.id (exDbC7.nextParticipantId + 1) exDbC7.now
            (([6] : List Nat).filter fun uid => !(uid == 5)) ∧
      (db'.participantsOf conv.id).length =
        1 + (([6] : List Nat).filter fun uid => !(uid == 5)).length ∧
      1 ≤ (db'.participantsOf conv.id).length ∧
      db'.adminsOf conv.id =
        [{ id := exDbC7.nextParticipantId, userId := 5, conversationId := conv.id,
           isAdmin := true, createdAt := exDbC7.now }] ∧
      ((db'.participantsOf conv.id).filter fun q => q.userId == 5) =
        [{ id := exDbC7.nextParticipantId, userId := 5, conversationId := conv.id,
           isAdmin := true, createdAt := exDbC7.now }] :=
  ⟨by decide,
    (c7_create_group_properties exDbC7 "team" 5 [6]).2 (by decide) (by decide) (by decide)⟩

/-- C5 amended: the gateway performs no connection counting.  Every
successful authenticated connection of an existing user emits exactly one
online `userStatusChanged`, and every disconnect of an authenticated socket
of an existing user emits exactly one offline `userStatusChanged` — in both
cases regardless of the user's other live sockets. -/
theorem c5_presence_event_per_connection (st : GatewayState) (sockId userId : Nat)
    (u : User) (s : Socket) :
    (st.db.users.find? (fun v => v.id == userId) = some u →
      (ChatGateway.handleConnection st sockId (some userId)).2 =
        [.userStatusChanged { u with isOnline := true, lastSeen := st.db.now }]) ∧
    (st.sockets.find? (fun x => x.sockId == sockId) = some s → s.userId = some userId →
      st.db.users.find? (fun v => v.id == userId) = some u →
      (ChatGateway.handleDisconnect st sockId).2 =
        [.userStatusChanged { u with isOnline := false, lastSeen := st.db.now }]) := by
  constructor
  · intro hu
    simp [ChatGateway.handleConnection, UserService.updateStatus, hu]
  · intro hs hsu hu
    simp [ChatGateway.handleDisconnect, UserService.updateStatus, hs, hsu, hu]

/-- C5 witness: in `exStC5` (user 1 online with sockets 1 and 2), a new
connection of socket 3 emits an online event, and disconnecting socket 1
emits an offline event. -/
theorem c5_presence_event_per_connection_witness :
    exStC5.db.users.find? (fun v => v.id == 1) = some ⟨1, "alice", true, 0⟩ ∧
    (ChatGateway.handleConnection exStC5 3 (some 1)).2 =
      [.userStatusChanged ⟨1, "alice", true, 7⟩] ∧
    (ChatGateway.handleDisconnect exStC5 1).2 =
      [.userStatusChanged ⟨1, "alice", false, 7⟩] :=
  ⟨by decide,
    (c5_presence_event_per_connection exStC5 3 1 ⟨1, "alice", true, 0⟩
      ⟨1, some 1, []⟩).1 (by decide),
    (c5_presence_event_per_connection exStC5 1 1 ⟨1, "alice", true, 0⟩
      ⟨1, some 1, []⟩).2 (by decide) (by decide) (by decide)⟩

/-- C4: `findOrCreatePrivateConversation` rejects `u1 = u2` with the
`ValidationError`; for `u1 ≠ u2` it always succeeds, repeated calls in
either argument order resolve to the same conversation and leave the state
unchanged, and the number of non-group conversations containing the
unordered pair afterwards is `max previous 1` — so at most one such
conversation is ever created. -/
theorem c4_find_or_create_private_idempotent (db : DB) (user1Id user2Id : Nat) :
    (user1Id = user2Id →
      ConversationService.findOrCreatePrivateConversation db user1Id user2Id =
        (.error (.validation "You cannot start a conversation with yourself"), db)) ∧
    (user1Id ≠ user2Id → db.WF →
      ∃ c db',
        ConversationService.findOrCreatePrivateConversation db user1Id user2Id =
          (.ok c, db') ∧
        ConversationService.findOrCreatePrivateConversation db' user1Id user2Id =
          (.ok c, db') ∧
        ConversationService.findOrCreatePrivateConversation db' user2Id user1Id =
          (.ok c, db') ∧
        ConversationService.privatePairCount db' user1Id user2Id =
          max (ConversationService.privatePairCount db user1Id user2Id) 1) := by
  constructor
  · intro h
    subst h
    simp [ConversationService.findOrCreatePrivateConversation]
  · intro hne hwf
    obtain ⟨-, -, -, hcb, -, hpb, -, -⟩ := hwf
    have hne12 : (user1Id == user2Id) = false := by
      simp [hne]
    have hne21 : (user2Id == user1Id) = false := by
      simp [Ne.symm hne]
    cases hfind : db.conversations.find?
        (ConversationService.privatePairPred db user1Id user2Id) with
    | some existing =>
      refine ⟨existing, db, ?_, ?_, ?_, ?_⟩
      · simp [ConversationService.findOrCreatePrivateConversation, hne12, hfind]
      · simp [ConversationService.findOrCreatePrivateConversation, hne12, hfind]
      · simp [ConversationService.findOrCreatePrivateConversation, hne21,
          privatePairPred_comm, hfind]
      · have hpos : 0 < ConversationService.privatePairCount db user1Id user2Id :=
          List.countP_pos_iff.mpr
            ⟨existing, List.mem_of_find?_eq_some hfind, List.find?_some hfind⟩
        omega
    | none =>
      refine ⟨⟨db.nextConversationId, false, none, none, db.now⟩,
        { db with
            conversations := db.conversations ++
              [{ id := db.nextConversationId, isGroup := false, name := none,
                 lastMessageId := none, updatedAt := db.now }],
            participants := db.participants ++
              [{ id := db.nextParticipantId, userId := user1Id,
                 conversationId := db.nextConversationId, isAdmin := false,
                 createdAt := db.now },
               { id := db.nextParticipantId + 1, userId := user2Id,
                 conversationId := db.nextConversationId, isAdmin := false,
                 createdAt := db.now }],
            nextConversationId := db.nextConversationId + 1,
            nextParticipantId := db.nextParticipantId + 2 },
        ?_, ?_, ?_, ?_⟩
      case _ =>
        simp [ConversationService.findOrCreatePrivateConversation, hne12, hfind]
      all_goals
        have hfresh : ∀ u cid, cid ≠ db.nextConversationId →
            (DB.hasParticipant
              { db with
                  conversations := db.conversations ++
                    [{ id := db.nextConversationId, isGroup := false, name := none,
                       lastMessageId := none, updatedAt := db.now }],
                  participants := db.participants ++
                    [{ id := db.nextParticipantId, userId := user1Id,
                       conversationId := db.nextConversationId, isAdmin := false,
                       createdAt := db.now },
                     { id := db.nextParticipantId + 1, userId := user2Id,
                       conversationId := db.nextConversationId, isAdmin := false,
                       createdAt := db.now }],
                  nextConversationId := db.nextConversationId + 1,
                  nextParticipantId := db.nextParticipantId + 2 }
              cid u) = db.hasParticipant cid u := by
          intro u cid hcid
          unfold DB.hasParticipant
          rw [List.any_append]
          have hnew : (List.any
              ([{ id := db.nextParticipantId, userId := user1Id,
                  conversationId := db.nextConversationId, isAdmin := false,
                  createdAt := db.now },
                { id := db.nextParticipantId + 1, userId := user2Id,
                  conversationId := db.nextConversationId, isAdmin := false,
                  createdAt := db.now }] : List Participant)
              fun p => p.conversationId == cid && p.userId == u) = false := by
            simp only [List.any_cons, List.any_nil, Bool.or_false]
            rw [show (db.nextConversationId == cid) = false by
              simp [Ne.symm hcid]]
            simp
          rw [hnew, Bool.or_false]
      all_goals
        have hmempred : ∀ c ∈ db.conversations,
            (ConversationService.privatePairPred
              { db with
                  conversations := db.conversations ++
                    [{ id := db.nextConversationId, isGroup := false, name := none,
                       lastMessageId := none, updatedAt := db.now }],
                  participants := db.participants ++
                    [{ id := db.nextParticipantId, userId := user1Id,
                       conversationId := db.nextConversationId, isAdmin := false,
                       createdAt := db.now },
                     { id := db.nextParticipantId + 1, userId := user2Id,
                       conversationId := db.nextConversationId, isAdmin := false,
                       createdAt := db.now }],
                  nextConversationId := db.nextConversationId + 1,
                  nextParticipantId := db.nextParticipantId + 2 }
              user1Id user2Id c) =
              ConversationService.privatePairPred db user1Id user2Id c := by
          intro c hc
          have hcid : c.id ≠ db.nextConversationId := by
            have := hcb c hc
            omega
          unfold ConversationService.privatePairPred
          rw [hfresh user1Id c.id hcid, hfresh user2Id c.id hcid]
      all_goals
        have hnewpred : (ConversationService.privatePairPred
            { db with
                conversations := db.conversations ++
                  [{ id := db.nextConversationId, isGroup := false, name := none,
                     lastMessageId := none, updatedAt := db.now }],
                participants := db.participants ++
                  [{ id := db.nextParticipantId, userId := user1Id,
                     conversationId := db.nextConversationId, isAdmin := false,
                     createdAt := db.now },
                   { id := db.nextParticipantId + 1, userId := user2Id,
                     conversationId := db.nextConversationId, isAdmin := false,
                     createdAt := db.now }],
                nextConversationId := db.nextConversationId + 1,
                nextParticipantId := db.nextParticipantId + 2 }
            user1Id user2Id
            ⟨db.nextConversationId, false, none, none, db.now⟩) = true := by
          unfold ConversationService.privatePairPred DB.hasParticipant
          simp [List.any_append]
      all_goals
        have hfind' : (List.find?
            (ConversationService.privatePairPred
              { db with
                  conversations := db.conversations ++
                    [{ id := db.nextConversationId, isGroup := false, name := none,
                       lastMessageId := none, updatedAt := db.now }],
                  participants := db.participants ++
                    [{ id := db.nextParticipantId, userId := user1Id,
                       conversationId := db.nextConversationId, isAdmin := false,
                       createdAt := db.now },
                     { id := db.nextParticipantId + 1, userId := user2Id,
                       conversationId := db.nextConversationId, isAdmin := false,
                       createdAt := db.now }],
                  nextConversationId := db.nextConversationId + 1,
                  nextParticipantId := db.nextParticipantId + 2 }
              user1Id user2Id)
            (db.conversations ++
              [{ id := db.nextConversationId, isGroup := false, name := none,
                 lastMessageId := none, updatedAt := db.now }])) =
            some ⟨db.nextConversationId, false, none, none, db.now⟩ := by
          rw [List.find?_append, find?_congr_mem db.conversations hmempred, hfind]
          simp only [Option.none_or, List.find?_cons]
          rw [hnewpred]
      · -- idempotence, same argument order
        simp [ConversationService.findOrCreatePrivateConversation, hne12, hfind']
      · -- idempotence, swapped argument order
        simp [ConversationService.findOrCreatePrivateConversation, hne21,
          privatePairPred_comm, hfind']
      · -- exactly one conversation for the pair afterwards
        have hzero : ConversationService.privatePairCount db user1Id user2Id = 0 :=
          List.countP_eq_zero.mpr (List.find?_eq_none.mp hfind)
        unfold ConversationService.privatePairCount
        rw [List.countP_append,
          List.countP_congr fun c hc => by rw [hmempred c hc]]
        unfold ConversationService.privatePairCount at hzero
        rw [hzero]
        simp only [List.countP_cons, List.countP_nil, hnewpred]
        simp

/-- C4 witness: on the empty database `exDbC4`, creating the private
conversation for the pair (1, 2) succeeds, repeats in both orders return the
same conversation without further writes, and exactly one private
conversation for the pair exists. -/
theorem c4_find_or_create_private_idempotent_witness :
    (1 : Nat) ≠ 2 ∧
    ∃ c db',
      ConversationService.findOrCreatePrivateConversation exDbC4 1 2 = (.ok c, db') ∧
      ConversationService.findOrCreatePrivateConversation db' 1 2 = (.ok c, db') ∧
      ConversationService.findOrCreatePrivateConversation db' 2 1 = (.ok c, db') ∧
      ConversationService.privatePairCount db' 1 2 =
        max (ConversationService.privatePairCount exDbC4 1 2) 1 :=
  ⟨by decide,
    (c4_find_or_create_private_idempotent exDbC4 1 2).2 (by decide) (by decide)⟩

/-- C2 amended: the single-admin invariant and earliest-joined promotion
hold for departures through `deleteConversation` (LeaveOrDelete) only: if a
well-formed database has exactly one admin row for the conversation and a
successful `deleteConversation` leaves participants behind, exactly one
admin row remains, and when the leaver held admin every remaining admin row
(there is one) has a `createdAt` no later than every remaining participant.
`removeParticipant` performs no rotation (see the counterexample). -/
theorem c2_admin_rotation (db : DB) (conversationId userId : Nat) :
    ∀ r db', db.WF →
      (db.adminsOf conversationId).length = 1 →
      ConversationService.deleteConversation db conversationId userId = (.ok r, db') →
      db'.participantsOf conversationId ≠ [] →
      ((db'.adminsOf conversationId).length = 1 ∧
       (∀ p, db.findParticipant userId conversationId = some p → p.isAdmin = true →
         ∀ a ∈ db'.adminsOf conversationId, ∀ q ∈ db'.participantsOf conversationId,
           a.createdAt ≤ q.createdAt)) := by
  intro r db' hwf hone h hne
  obtain ⟨-, hidnd, hpairnd, -, -, -, -, -⟩ := hwf
  simp only [ConversationService.deleteConversation] at h
  split at h
  · exact absurd h (by simp)
  · rename_i participant hfp
    have hfp' : db.participants.find?
        (fun p => p.userId == userId && p.conversationId == conversationId) =
          some participant := hfp
    have hpmem := List.mem_of_find?_eq_some hfp'
    have hpkey : (participant.userId == userId &&
        participant.conversationId == conversationId) = true :=
      List.find?_some
        (p := fun p : Participant => p.userId == userId && p.conversationId == conversationId)
        hfp'
    have hpuid : participant.userId = userId := by
      have := hpkey
      simp only [Bool.and_eq_true, beq_iff_eq] at this
      exact this.1
    have hpcid : participant.conversationId = conversationId := by
      have := hpkey
      simp only [Bool.and_eq_true, beq_iff_eq] at this
      exact this.2
    obtain ⟨a0, ha0⟩ := List.length_eq_one.mp hone
    have ha0mem' : a0 ∈ db.adminsOf conversationId := by
      rw [ha0]
      simp
    have ha0mem'' : a0 ∈ db.participants.filter
        (fun p => p.isAdmin && p.conversationId == conversationId) := ha0mem'
    have ha0mem : a0 ∈ db.participants := (List.mem_filter.mp ha0mem'').1
    have ha0pred : (a0.isAdmin && a0.conversationId == conversationId) = true :=
      (List.mem_filter.mp ha0mem'').2
    have hadm_unique : ∀ b ∈ db.participants,
        (b.isAdmin && b.conversationId == conversationId) = true → b = a0 := by
      intro b hb hbpred
      have hmem : b ∈ db.adminsOf conversationId :=
        (List.mem_filter.mpr ⟨hb, hbpred⟩ :
          b ∈ db.participants.filter
            (fun p => p.isAdmin && p.conversationId == conversationId))
      rw [ha0] at hmem
      simpa using hmem
    split at h
    · -- cascade branch: contradicts hne
      rename_i heq
      simp only [Prod.mk.injEq, Except.ok.injEq] at h
      obtain ⟨-, hdb⟩ := h
      subst hdb
      exfalso
      apply hne
      have hperm := List.perm_insertionSort byJoinedAsc
        ((db.participants.filter fun p =>
            !(p.userId == userId && p.conversationId == conversationId)).filter
          fun p => p.conversationId == conversationId)
      rw [heq] at hperm
      exact hperm.symm.eq_nil
    · rename_i oldest rest heq
      have hperm := List.perm_insertionSort byJoinedAsc
        ((db.participants.filter fun p =>
            !(p.userId == userId && p.conversationId == conversationId)).filter
          fun p => p.conversationId == conversationId)
      rw [heq] at hperm
      have hsorted := List.sorted_insertionSort byJoinedAsc
        ((db.participants.filter fun p =>
            !(p.userId == userId && p.conversationId == conversationId)).filter
          fun p => p.conversationId == conversationId)
      rw [heq] at hsorted
      have holdfl : oldest ∈ (db.participants.filter fun p =>
          !(p.userId == userId && p.conversationId == conversationId)).filter
            (fun p => p.conversationId == conversationId) :=
        hperm.subset (List.mem_cons_self oldest rest)
      have holdAD : oldest ∈ db.participants.filter fun p =>
          !(p.userId == userId && p.conversationId == conversationId) :=
        (List.mem_filter.mp holdfl).1
      have holdcid : (oldest.conversationId == conversationId) = true :=
        (List.mem_filter.mp holdfl).2
      have hADids : (db.participants.filter fun p =>
          !(p.userId == userId && p.conversationId == conversationId)).Pairwise
            (fun x y => x.id ≠ y.id) :=
        hidnd.sublist (List.filter_sublist _)
      split at h
      · -- departing participant was admin: rotation
        rename_i hpadm
        simp only [Prod.mk.injEq, Except.ok.injEq] at h
        obtain ⟨-, hdb⟩ := h
        subst hdb
        have hADnoadm : ∀ b ∈ db.participants.filter
            (fun p => !(p.userId == userId && p.conversationId == conversationId)),
            (b.isAdmin && b.conversationId == conversationId) = false := by
          intro b hb
          cases hx : (b.isAdmin && b.conversationId == conversationId)
          · rfl
          · exfalso
            have hbmem : b ∈ db.participants := (List.mem_filter.mp hb).1
            have hbkey : (!(b.userId == userId && b.conversationId == conversationId)) = true :=
              (List.mem_filter.mp hb).2
            have hba0 : b = a0 := hadm_unique b hbmem hx
            have hppred : (participant.isAdmin &&
                participant.conversationId == conversationId) = true := by
              rw [hpadm, hpcid]
              simp
            have hpa0 : participant = a0 := hadm_unique participant hpmem hppred
            rw [hba0, ← hpa0, hpkey] at hbkey
            simp at hbkey
        have hcompadm : ∀ b ∈ db.participants.filter
            (fun p => !(p.userId == userId && p.conversationId == conversationId)),
            ((if (b.id == oldest.id) = true then
                ({ b with isAdmin := true } : Participant) else b).isAdmin &&
             (if (b.id == oldest.id) = true then
                ({ b with isAdmin := true } : Participant) else b).conversationId
               == conversationId) = (b.id == oldest.id) := by
          intro b hb
          by_cases hid : (b.id == oldest.id) = true
          · have hbo : b = oldest :=
              participant_eq_of_same_id hADids hb holdAD (by simpa using hid)
            subst hbo
            simp [holdcid]
          · have hidf : (b.id == oldest.id) = false := by simpa using hid
            rw [hidf]
            simp only [Bool.false_eq_true, if_false]
            exact hADnoadm b hb
        have hsingle : (db.participants.filter
            (fun p => !(p.userId == userId && p.conversationId == conversationId))).filter
              (fun b => b.id == oldest.id) = [oldest] :=
          filter_eq_singleton_of_key Participant.id (fun b => b.id == oldest.id) oldest _
            hADids holdAD (by simp) (fun b _ hqb => by simpa using hqb)
        have hcompadm2 : ∀ b ∈ db.participants.filter
            (fun p => !(p.userId == userId && p.conversationId == conversationId)),
            ((fun p : Participant => p.isAdmin && p.conversationId == conversationId) ∘
              (fun p : Participant => if (p.id == oldest.id) = true then
                { p with isAdmin := true } else p)) b = (b.id == oldest.id) := by
          intro b hb
          simp only [Function.comp]
          exact hcompadm b hb
        have hcompcid : ∀ b ∈ db.participants.filter
            (fun p => !(p.userId == userId && p.conversationId == conversationId)),
            ((fun p : Participant => p.conversationId == conversationId) ∘
              (fun p : Participant => if (p.id == oldest.id) = true then
                { p with isAdmin := true } else p)) b =
              (b.conversationId == conversationId) := by
          intro b _
          simp only [Function.comp]
          by_cases hid : (b.id == oldest.id) = true <;> simp [hid]
        constructor
        · simp only [DB.adminsOf]
          rw [List.filter_map, List.filter_congr hcompadm2, hsingle]
          simp
        · intro p hp hpadm' a ha q hq
          simp only [DB.adminsOf] at ha
          rw [List.filter_map, List.filter_congr hcompadm2, hsingle] at ha
          simp only [List.map_cons, List.map_nil, beq_self_eq_true, if_true,
            List.mem_singleton] at ha
          simp only [DB.participantsOf] at hq
          rw [List.filter_map, List.filter_congr hcompcid] at hq
          obtain ⟨q₀, hq₀, rfl⟩ := List.mem_map.mp hq
          have hq₀' : q₀ ∈ oldest :: rest := hperm.symm.subset hq₀
          have hfq : ((fun p : Participant => if (p.id == oldest.id) = true then
              { p with isAdmin := true } else p) q₀).createdAt = q₀.createdAt := by
            by_cases hid : (q₀.id == oldest.id) = true <;> simp [hid]
          rw [ha, hfq]
          show oldest.createdAt ≤ q₀.createdAt
          rcases List.mem_cons.mp hq₀' with rfl | hq₀rest
          · exact Nat.le_refl _
          · exact List.rel_of_sorted_cons hsorted q₀ hq₀rest
      · -- departing participant was not admin
        rename_i hpadm
        simp only [Prod.mk.injEq, Except.ok.injEq] at h
        obtain ⟨-, hdb⟩ := h
        subst hdb
        have h1 : ((db.participants.filter
            (fun p => !(p.userId == userId && p.conversationId == conversationId))).filter
              (fun p => p.isAdmin && p.conversationId == conversationId)) =
            db.participants.filter
              (fun p => p.isAdmin && p.conversationId == conversationId) := by
          rw [List.filter_filter]
          apply List.filter_congr
          intro b hb
          show ((b.isAdmin && b.conversationId == conversationId) &&
              !(b.userId == userId && b.conversationId == conversationId)) =
            (b.isAdmin && b.conversationId == conversationId)
          cases hx : (b.isAdmin && b.conversationId == conversationId)
          · simp
          · have hba0 : b = a0 := hadm_unique b hb hx
            have hkeya0 : (a0.userId == userId && a0.conversationId == conversationId) =
                false := by
              cases hk : (a0.userId == userId && a0.conversationId == conversationId)
              · rfl
              · exfalso
                simp only [Bool.and_eq_true, beq_iff_eq] at hk
                have heqp : a0 = participant :=
                  participant_eq_of_same_pair hpairnd ha0mem hpmem
                    (by rw [hk.1, hpuid]) (by rw [hk.2, hpcid])
                have ha0adm : a0.isAdmin = true := by
                  simp only [Bool.and_eq_true] at ha0pred
                  exact ha0pred.1
                rw [heqp] at ha0adm
                exact hpadm ha0adm
            rw [hba0, hkeya0]
            simp
        constructor
        · show ((db.participants.filter
              (fun p => !(p.userId == userId && p.conversationId == conversationId))).filter
                (fun p => p.isAdmin && p.conversationId == conversationId)).length = 1
          rw [h1]
          exact hone
        · intro p hp hpadm'
          rw [hfp] at hp
          injection hp with hpp
          subst hpp
          exact absurd hpadm' hpadm

/-- C2 witness: in `exDbC2` the admin (user 5) leaves via
`deleteConversation`; exactly one admin remains afterwards (user 7,
promoted). -/
theorem c2_admin_rotation_witness :
    exDbC2.WF ∧ (exDbC2.adminsOf 1).length = 1 ∧
    ((ConversationService.deleteConversation exDbC2 1 5).2.adminsOf 1).length = 1 :=
  ⟨by decide, by decide,
    (c2_admin_rotation exDbC2 1 5 ⟨true, "You left the conversation"⟩
      (ConversationService.deleteConversation exDbC2 1 5).2 (by decide) (by decide)
      (by decide) (by decide)).1⟩

/-- C10: `editMessage` never consults `isDeleted`.  When the author of a
soft-deleted message edits it through the gateway, the call succeeds, the
stored content is overwritten with the new text while `isDeleted` stays
true, the returned record carries the new text, and `messageUpdated` with
the new text is broadcast to the conversation room. -/
theorem c10_edit_ignores_deleted_flag (st : GatewayState)
    (userId messageId conversationId : Nat) (text : String) :
    ∀ m, st.db.findMessage messageId = some m → m.userId = userId → m.isDeleted = true →
      ChatGateway.handleEditMessage st userId messageId conversationId text =
        (.ok { m with content := text, updatedAt := st.db.now },
         { st with db := { st.db with messages := st.db.messages.map fun m' =>
             if m'.id == messageId then { m' with content := text, updatedAt := st.db.now }
             else m' } },
         [.messageUpdated (ChatGateway.conversationRoom conversationId) messageId text]) ∧
      ({ m with content := text, updatedAt := st.db.now } : Message).isDeleted = true ∧
      ({ m with content := text, updatedAt := st.db.now } : Message).content = text ∧
      (ChatGateway.handleEditMessage st userId messageId conversationId text).2.1.db.findMessage
          messageId = some { m with content := text, updatedAt := st.db.now } := by
  intro m hm hauth hdel
  have hid : (m.id == messageId) = true := by
    have := List.find?_some (p := fun x : Message => x.id == messageId)
      (by simpa [DB.findMessage] using hm)
    exact this
  have hedit : MessageService.editMessage st.db messageId userId text =
      (.ok { m with content := text, updatedAt := st.db.now },
       { st.db with messages := st.db.messages.map fun m' =>
           if m'.id == messageId then { m' with content := text, updatedAt := st.db.now }
           else m' }) := by
    simp [MessageService.editMessage, hm, hauth]
  refine ⟨?_, by simpa using hdel, rfl, ?_⟩
  · simp [ChatGateway.handleEditMessage, hedit]
  · simp only [ChatGateway.handleEditMessage, hedit]
    rw [findMessage_map_update st.db messageId _
      (fun m' => by by_cases h : m'.id == messageId <;> simp [h])]
    rw [hm]
    simp [Option.map, hid]

/-- C10 witness: user 1 edits their soft-deleted message 1 of `exStC10`;
the stored record afterwards carries the new text with `isDeleted` still
set, and the room receives `messageUpdated` with the new text. -/
theorem c10_edit_ignores_deleted_flag_witness :
    exStC10.db.findMessage 1 = some ⟨1, 1, 1, "old", 0, 0, true, false⟩ ∧
    (⟨1, 1, 1, "old", 0, 0, true, false⟩ : Message).isDeleted = true ∧
    (ChatGateway.handleEditMessage exStC10 1 1 1 "new").2.1.db.findMessage 1 =
      some ⟨1, 1, 1, "new", 0, 8, true, false⟩ ∧
    (ChatGateway.handleEditMessage exStC10 1 1 1 "new").2.2 =
      [.messageUpdated (ChatGateway.conversationRoom 1) 1 "new"] :=
  ⟨by decide, by decide,
    (c10_edit_ignores_deleted_flag exStC10 1 1 1 "new"
      ⟨1, 1, 1, "old", 0, 0, true, false⟩ (by decide) (by decide) (by decide)).2.2.2,
    by decide⟩

/-- C8: `sendMessage` from a non-participant is refused with a structured
error and no state change; from a participant it persists a message with the
sender as author and the submitted text, broadcasts it as `receiveMessage`
to the room `conversation_<id>`, and afterwards the conversation row carries
`lastMessageId = message.id` and a refreshed `updatedAt`. -/
theorem c8_send_message_persists_and_broadcasts (st : GatewayState)
    (senderId conversationId : Nat) (text : String) (conv : Conversation) :
    (ConversationService.isParticipant st.db conversationId senderId = false →
      ChatGateway.handleMessage st senderId conversationId text none =
        (.error "Unauthorized: You are not a member of this conversation", st, [])) ∧
    (st.db.WF →
      ConversationService.isParticipant st.db conversationId senderId = true →
      st.db.findConversation conversationId = some conv →
      ∃ m st',
        ChatGateway.handleMessage st senderId conversationId text none =
          (.ok m, st',
           [.receiveMessage (ChatGateway.conversationRoom conversationId) m]) ∧
        m.userId = senderId ∧ m.content = text ∧ m.conversationId = conversationId ∧
        st'.db.findMessage m.id = some m ∧
        st'.db.findConversation conversationId =
          some { conv with updatedAt := st.db.now, lastMessageId := some m.id }) := by
  constructor
  · intro h
    simp [ChatGateway.handleMessage, h]
  · intro hwf hpart hconv
    obtain ⟨-, -, -, -, -, -, hmb, -⟩ := hwf
    have hconv' : st.db.conversations.find? (fun c => c.id == conversationId) = some conv :=
      hconv
    have hconvmem := List.mem_of_find?_eq_some hconv'
    have hconvid : (conv.id == conversationId) = true :=
      List.find?_some (p := fun c : Conversation => c.id == conversationId) hconv'
    have hany : (st.db.conversations.any fun c => c.id == conversationId) = true :=
      List.any_eq_true.mpr ⟨conv, hconvmem, hconvid⟩
    have hcreate : MessageService.createMessage st.db senderId conversationId text =
        (.ok { id := st.db.nextMessageId, conversationId := conversationId,
               userId := senderId, content := text, createdAt := st.db.now,
               updatedAt := st.db.now, isDeleted := false, isRead := false },
         { st.db with
             messages := st.db.messages ++
               [{ id := st.db.nextMessageId, conversationId := conversationId,
                  userId := senderId, content := text, createdAt := st.db.now,
                  updatedAt := st.db.now, isDeleted := false, isRead := false }],
             nextMessageId := st.db.nextMessageId + 1,
             conversations := st.db.conversations.map fun c =>
               if c.id == conversationId then
                 { c with updatedAt := st.db.now,
                          lastMessageId := some st.db.nextMessageId }
               else c }) := by
      simp [MessageService.createMessage, hany]
    refine ⟨⟨st.db.nextMessageId, conversationId, senderId, text, st.db.now, st.db.now,
      false, false⟩,
      { st with db :=
          { st.db with
              messages := st.db.messages ++
                [{ id := st.db.nextMessageId, conversationId := conversationId,
                   userId := senderId, content := text, createdAt := st.db.now,
                   updatedAt := st.db.now, isDeleted := false, isRead := false }],
              nextMessageId := st.db.nextMessageId + 1,
              conversations := st.db.conversations.map fun c =>
                if c.id == conversationId then
                  { c with updatedAt := st.db.now,
                           lastMessageId := some st.db.nextMessageId }
                else c } },
      ?_, rfl, rfl, rfl, ?_, ?_⟩
    · simp [ChatGateway.handleMessage, hpart, hcreate]
    · unfold DB.findMessage
      simp only [List.find?_append]
      have hnone : (st.db.messages.find?
          fun x => x.id == st.db.nextMessageId) = none := by
        rw [List.find?_eq_none]
        intro m' hm'
        have := hmb m' hm'
        simp only [beq_iff_eq]
        omega
      rw [hnone]
      simp [List.find?]
    · have hfc : (DB.findConversation
          { st.db with
              messages := st.db.messages ++
                [{ id := st.db.nextMessageId, conversationId := conversationId,
                   userId := senderId, content := text, createdAt := st.db.now,
                   updatedAt := st.db.now, isDeleted := false, isRead := false }],
              nextMessageId := st.db.nextMessageId + 1,
              conversations := st.db.conversations.map fun c =>
                if c.id == conversationId then
                  { c with updatedAt := st.db.now,
                           lastMessageId := some st.db.nextMessageId }
                else c }
          conversationId) =
          (st.db.findConversation conversationId).map fun c =>
            if c.id == conversationId then
              { c with updatedAt := st.db.now,
                       lastMessageId := some st.db.nextMessageId }
            else c := by
        unfold DB.findConversation
        rw [List.find?_map]
        have hp : ((fun c : Conversation => c.id == conversationId) ∘ fun c =>
            if c.id == conversationId then
              { c with updatedAt := st.db.now,
                       lastMessageId := some st.db.nextMessageId }
            else c) = fun c : Conversation => c.id == conversationId := by
          funext c
          by_cases h : c.id == conversationId <;> simp [Function.comp, h]
        rw [hp]
      rw [hfc, hconv]
      simp [Option.map, hconvid]

/-- C8 witness: user 1 (a participant of conversation 10 in `exStC8`) sends
"hi"; the spec scenario holds with the persisted message broadcast to room
`conversation_10` and `lastMessageId` updated. -/
theorem c8_send_message_persists_and_broadcasts_witness :
    ConversationService.isParticipant exStC8.db 10 1 = true ∧
    ∃ m st',
      ChatGateway.handleMessage exStC8 1 10 "hi" none =
        (.ok m, st', [.receiveMessage (ChatGateway.conversationRoom 10) m]) ∧
      m.userId = 1 ∧ m.content = "hi" ∧ m.conversationId = 10 ∧
      st'.db.findMessage m.id = some m ∧
      st'.db.findConversation 10 =
        some { (⟨10, false, none, none, 2⟩ : Conversation) with
               updatedAt := exStC8.db.now, lastMessageId := some m.id } :=
  ⟨by decide,
    (c8_send_message_persists_and_broadcasts exStC8 1 10 "hi"
      ⟨10, false, none, none, 2⟩).2 (by decide) (by decide) (by decide)⟩

/-- C6: a caller who is not the author gets `AuthorizationError` from both
`editMessage` and `deleteMessage`, and an absent message yields
`NotFoundError`; in every failing case the returned state is exactly the
input state, so the message record is unmodified. -/
theorem c6_edit_delete_author_guard (db : DB) (messageId userId : Nat) (newText : String) :
    (db.findMessage messageId = none →
      MessageService.editMessage db messageId userId newText =
        (.error (.notFound "Message not found"), db) ∧
      MessageService.deleteMessage db messageId userId =
        (.error (.notFound "Message not found"), db)) ∧
    (∀ m, db.findMessage messageId = some m → m.userId ≠ userId →
      MessageService.editMessage db messageId userId newText =
        (.error (.authorization "You can only edit your own messages"), db) ∧
      MessageService.deleteMessage db messageId userId =
        (.error (.authorization "You can only delete your own messages"), db)) := by
  refine ⟨fun h => ?_, fun m hm hne => ?_⟩
  · constructor <;> simp [MessageService.editMessage, MessageService.deleteMessage, h]
  · constructor <;>
      simp [MessageService.editMessage, MessageService.deleteMessage, hm, hne]

/-- C6 witness: message 1 of `exDbC6` is authored by user 2; user 3's edit
and delete attempts both fail with the authorization error and leave the
state untouched. -/
theorem c6_edit_delete_author_guard_witness :
    exDbC6.findMessage 1 = some ⟨1, 1, 2, "hello", 0, 0, false, false⟩ ∧
    (⟨1, 1, 2, "hello", 0, 0, false, false⟩ : Message).userId ≠ 3 ∧
    MessageService.editMessage exDbC6 1 3 "x" =
      (.error (.authorization "You can only edit your own messages"), exDbC6) ∧
    MessageService.deleteMessage exDbC6 1 3 =
      (.error (.authorization "You can only delete your own messages"), exDbC6) :=
  ⟨by decide, by decide,
    ((c6_edit_delete_author_guard exDbC6 1 3 "x").2
      ⟨1, 1, 2, "hello", 0, 0, false, false⟩ (by decide) (by decide)).1,
    ((c6_edit_delete_author_guard exDbC6 1 3 "x").2
      ⟨1, 1, 2, "hello", 0, 0, false, false⟩ (by decide) (by decide)).2⟩

/-- C9 amended: an absent requester fails with the `AuthorizationError`
"You are not a member of this conversation" (not `NotFoundError`); a present
requester with an absent target fails with `NotFoundError`; a non-admin
requester removing someone else fails with `AuthorizationError`.  Every
failure returns the input state unchanged. -/
theorem c9_remove_participant_error_cases (db : DB)
    (conversationId targetUserId requesterId : Nat) :
    (db.findParticipant requesterId conversationId = none →
      ConversationService.removeParticipant db conversationId targetUserId requesterId =
        (.error (.authorization "You are not a member of this conversation"), db)) ∧
    (∀ requester, db.findParticipant requesterId conversationId = some requester →
      db.findParticipant targetUserId conversationId = none →
      ConversationService.removeParticipant db conversationId targetUserId requesterId =
        (.error (.notFound "Target user is not a participant in this conversation"), db)) ∧
    (∀ requester target, db.findParticipant requesterId conversationId = some requester →
      db.findParticipant targetUserId conversationId = some target →
      requester.isAdmin = false → targetUserId ≠ requesterId →
      ConversationService.removeParticipant db conversationId targetUserId requesterId =
        (.error (.authorization "Only admins can remove other members"), db)) := by
  refine ⟨fun h => ?_, fun requester hr ht => ?_, fun requester target hr ht hadm hne => ?_⟩
  · simp [ConversationService.removeParticipant, h]
  · simp [ConversationService.removeParticipant, hr, ht]
  · simp [ConversationService.removeParticipant, hr, ht, hadm, hne]

/-- C9 witness: in `exDbC9` the non-admin user 2 tries to remove user 3;
the call fails with the admins-only authorization error. -/
theorem c9_remove_participant_error_cases_witness :
    exDbC9.findParticipant 2 1 = some ⟨2, 2, 1, false, 1⟩ ∧
    exDbC9.findParticipant 3 1 = some ⟨3, 3, 1, false, 2⟩ ∧
    (⟨2, 2, 1, false, 1⟩ : Participant).isAdmin = false ∧
    (3 : Nat) ≠ 2 ∧
    ConversationService.removeParticipant exDbC9 1 3 2 =
      (.error (.authorization "Only admins can remove other members"), exDbC9) :=
  ⟨by decide, by decide, by decide, by decide,
    (c9_remove_participant_error_cases exDbC9 1 3 2).2.2
      ⟨2, 2, 1, false, 1⟩ ⟨3, 3, 1, false, 2⟩ (by decide) (by decide) (by decide) (by decide)⟩

/-- C3 amended (the half that holds): every message surfaced by
`getMessagesByConversation` that is soft-deleted carries the fixed
placeholder, never its stored content. -/
theorem c3_get_messages_masks_deleted (db : DB) (conversationId limit page : Nat) :
    ∀ m ∈ MessageService.getMessagesByConversation db conversationId limit page,
      m.isDeleted = true → m.content = MessageService.deletedPlaceholder := by
  intro m hm hdel
  unfold MessageService.getMessagesByConversation at hm
  simp only [List.mem_map] at hm
  obtain ⟨m₀, _, rfl⟩ := hm
  by_cases h : m₀.isDeleted <;> simp_all

/-- C3 witness: in `exDbC3` the deleted message is returned by the paginated
read path with the placeholder content. -/
theorem c3_get_messages_masks_deleted_witness :
    (⟨1, 1, 2, MessageService.deletedPlaceholder, 3, 3, true, false⟩ : Message) ∈
      MessageService.getMessagesByConversation exDbC3 1 50 1 ∧
    (⟨1, 1, 2, MessageService.deletedPlaceholder, 3, 3, true, false⟩ : Message).content =
      MessageService.deletedPlaceholder :=
  ⟨by decide,
    c3_get_messages_masks_deleted exDbC3 1 50 1
      ⟨1, 1, 2, MessageService.deletedPlaceholder, 3, 3, true, false⟩ (by decide) (by decide)⟩

/-- C1 amended: the cascade holds for `deleteConversation` (LeaveOrDelete)
only — whenever it succeeds and no participant of the conversation remains,
the conversation row and all of its messages are gone; `removeParticipant`
never deletes conversations or messages, whatever it removes. -/
theorem c1_cascade_only_in_leave_or_delete (db : DB)
    (conversationId userId targetUserId requesterId : Nat) :
    (∀ r db', ConversationService.deleteConversation db conversationId userId = (.ok r, db') →
      db'.participantsOf conversationId = [] →
        db'.findConversation conversationId = none ∧ db'.messagesOf conversationId = []) ∧
    (∀ p db',
      ConversationService.removeParticipant db conversationId targetUserId requesterId =
        (.ok p, db') →
      db'.conversations = db.conversations ∧ db'.messages = db.messages) := by
  constructor
  · intro r db' h hempty
    simp only [ConversationService.deleteConversation] at h
    split at h
    · exact absurd h (by simp)
    · rename_i participant hfp
      split at h
      · -- nobody remains: the cascade branch
        simp only [Prod.mk.injEq, Except.ok.injEq] at h
        obtain ⟨-, hdb⟩ := h
        subst hdb
        constructor
        · rw [DB.findConversation, List.find?_eq_none]
          intro c hc
          simp only [List.mem_filter] at hc
          simpa using hc.2
        · simp [DB.messagesOf, List.filter_filter]
      · -- someone remains: contradicts `hempty`
        rename_i oldest rest heq
        have hperm := List.perm_insertionSort byJoinedAsc
          ((db.participants.filter fun p =>
              !(p.userId == userId && p.conversationId == conversationId)).filter
            fun p => p.conversationId == conversationId)
        rw [heq] at hperm
        have hlen := hperm.length_eq
        split at h <;>
          simp only [Prod.mk.injEq, Except.ok.injEq] at h <;>
          obtain ⟨-, hdb⟩ := h <;>
          subst hdb
        · -- admin rotation branch
          simp only [DB.participantsOf, List.filter_map] at hempty
          have hcomp : ((fun p : Participant => p.conversationId == conversationId) ∘
              fun p : Participant =>
                if p.id == oldest.id then { p with isAdmin := true } else p) =
              fun p : Participant => p.conversationId == conversationId := by
            funext p
            by_cases hp : p.id == oldest.id <;> simp [Function.comp, hp]
          rw [hcomp] at hempty
          rw [List.map_eq_nil_iff] at hempty
          rw [hempty] at hlen
          simp at hlen
        · -- plain leave branch
          simp only [DB.participantsOf] at hempty
          rw [hempty] at hlen
          simp at hlen
  · intro p db' h
    simp only [ConversationService.removeParticipant] at h
    split at h
    · exact absurd h (by simp)
    · split at h
      · exact absurd h (by simp)
      · split at h
        · exact absurd h (by simp)
        · simp only [Prod.mk.injEq, Except.ok.injEq] at h
          obtain ⟨-, hdb⟩ := h
          subst hdb
          exact ⟨rfl, rfl⟩

/-- C1 witness: user 2, the sole participant of `exDbC1`'s conversation 1,
leaves via `deleteConversation`; nobody remains, and the conversation row
together with its messages is gone. -/
theorem c1_cascade_only_in_leave_or_delete_witness :
    (ConversationService.deleteConversation exDbC1 1 2).1 =
      .ok { success := true, message := "Conversation fully deleted" } ∧
    ((ConversationService.deleteConversation exDbC1 1 2).2).participantsOf 1 = [] ∧
    ((ConversationService.deleteConversation exDbC1 1 2).2).findConversation 1 = none ∧
    ((ConversationService.deleteConversation exDbC1 1 2).2).messagesOf 1 = [] := by
  refine ⟨by decide, by decide, ?_⟩
  have h := (c1_cascade_only_in_leave_or_delete exDbC1 1 2 2 2).1
    { success := true, message := "Conversation fully deleted" }
    (ConversationService.deleteConversation exDbC1 1 2).2 (by decide) (by decide)
  exact h

/-- C1 counterexample: in `exDbC1` the sole participant of conversation 1
removes themself via `removeParticipant` (self-leave); the call succeeds and
empties the participant set, yet the conversation row and its message both
persist — refuting the claim that every removal path cascades. -/
theorem c1_remove_last_participant_no_cascade :
    (ConversationService.removeParticipant exDbC1 1 2 2).1 = .ok ⟨1, 2, 1, true, 0⟩ ∧
    ((ConversationService.removeParticipant exDbC1 1 2 2).2).participantsOf 1 = [] ∧
    ((ConversationService.removeParticipant exDbC1 1 2 2).2).findConversation 1 =
      some ⟨1, true, some "g", none, 0⟩ ∧
    ((ConversationService.removeParticipant exDbC1 1 2 2).2).messagesOf 1 =
      [⟨1, 1, 2, "hello", 0, 0, false, false⟩] := by
  decide

/-- C2 counterexample: the admin (user 5) of group 1 self-leaves via
`removeParticipant`; user 7 remains, but nobody is promoted, so the group is
left with zero admins — refuting the claim for removals outside
`deleteConversation`. -/
theorem c2_admin_self_leave_no_rotation :
    (ConversationService.removeParticipant exDbC2 1 5 5).1 = .ok ⟨1, 5, 1, true, 0⟩ ∧
    ((ConversationService.removeParticipant exDbC2 1 5 5).2).participantsOf 1 =
      [⟨2, 7, 1, false, 1⟩] ∧
    ((ConversationService.removeParticipant exDbC2 1 5 5).2).adminsOf 1 = [] := by
  decide

/-- C3 counterexample: the sidebar read path `getUserConversations` returns
conversation 1's latest message with `isDeleted = true` and its stored
original content `"secret"`, not the placeholder. -/
theorem c3_sidebar_leaks_deleted_content :
    ConversationService.getUserConversations exDbC3 1 =
      [{ conversation := ⟨1, false, none, some 1, 4⟩,
         otherParticipants := [⟨2, 2, 1, false, 0⟩],
         lastMessages := [⟨1, 1, 2, "secret", 3, 3, true, false⟩] }] ∧
    (⟨1, 1, 2, "secret", 3, 3, true, false⟩ : Message).isDeleted = true ∧
    (⟨1, 1, 2, "secret", 3, 3, true, false⟩ : Message).content ≠
      MessageService.deletedPlaceholder := by
  decide

/-- C5 counterexample: user 1 is already online with two live sockets.  A
third connection still emits a `userStatusChanged` online event (duplicate
online transition), and disconnecting socket 1 emits an offline event even
though socket 2 of the same user remains open. -/
theorem c5_presence_has_no_connection_counting :
    exStC5.db.users = [⟨1, "alice", true, 0⟩] ∧
    exStC5.sockets.any (fun s => s.userId == some 1) = true ∧
    (ChatGateway.handleConnection exStC5 3 (some 1)).2 =
      [.userStatusChanged ⟨1, "alice", true, 7⟩] ∧
    (ChatGateway.handleDisconnect exStC5 1).2 =
      [.userStatusChanged ⟨1, "alice", false, 7⟩] ∧
    ((ChatGateway.handleDisconnect exStC5 1).1).sockets = [⟨2, some 1, []⟩] := by
  decide

/-- C7 counterexample: `createGroupConversation` with `participantIds = [5]`
equal to the admin id succeeds and creates a group whose participant set is
the creator alone — one participant, not at least two. -/
theorem c7_group_of_one_participant :
    (ConversationService.createGroupConversation exDbC7 "team" 5 [5]).1 =
      .ok ⟨1, true, some "team", none, 3⟩ ∧
    ((ConversationService.createGroupConversation exDbC7 "team" 5 [5]).2).participantsOf 1 =
      [⟨1, 5, 1, true, 3⟩] ∧
    (((ConversationService.createGroupConversation exDbC7 "team" 5 [5]).2).participantsOf 1).length
      = 1 := by
  decide

/-- C9 counterexample: user 9 is not a participant of conversation 1; their
removal request fails with the `ForbiddenException` "You are not a member of
this conversation" — an authorization error, not the `NotFoundError` the
claim requires for an absent requester. -/
theorem c9_absent_requester_gets_authorization_error :
    ConversationService.removeParticipant exDbC9 1 2 9 =
      (.error (.authorization "You are not a member of this conversation"), exDbC9) ∧
    isNotFoundResult (ConversationService.removeParticipant exDbC9 1 2 9).1 = false := by
  decide

end Talker
